import Mathlib

/-!
Shallow embedding of `rename_field_plugin_pcb.py` (KiCad "Rename footprint
field" plugin).  The embedded code is `_rename_fields_on_board` together with
the validation logic of `RenameFieldPlugin.Run`.

Host-API calls on a footprint or a field may succeed, raise `AttributeError`
(the capability is absent on this host build), or raise some other exception.
Each call site's possible outcome is a `Beh` field of the modelled object, so
the embedding covers every control path of the Python `try`/`except` blocks.
-/

namespace RenamePlugin

/-- Outcome of one host-API call: normal return, `AttributeError`
(capability absent on this build), or any other exception. -/
inductive Beh : Type
  | ok : Beh
  | attrErr : Beh
  | otherErr : Beh
deriving DecidableEq, Repr

/-- ASCII whitespace, as Python's `str.strip()` removes at both ends of a
field name (the embedding models ASCII data). -/
def isSpaceChar (ch : Char) : Bool :=
  ch = ' ' || ch = '\t' || ch = '\n' || ch = '\r'

/-- Remove leading whitespace characters. -/
def dropSpaces : List Char → List Char
  | [] => []
  | ch :: rest => if isSpaceChar ch then dropSpaces rest else ch :: rest

/-- Python `s.strip()` on the character list: remove whitespace at both ends. -/
def pyStrip (l : List Char) : List Char :=
  (dropSpaces ((dropSpaces l).reverse)).reverse

/-- Python `s.strip()` as a string-to-string function (used by
`_RenameDialog.get_values`, line 131/132 of the source). -/
def pyStripStr (s : String) : String :=
  String.mk (pyStrip s.data)

/-- Python `(s or "").strip().lower()` (line 14 / 25 / 57 of the source),
ASCII case folding. -/
def pyNorm (s : String) : String :=
  String.mk ((pyStrip s.data).map Char.toLower)

/-- One named text field of a footprint (case B storage).  `name`/`text` are
the stored data; the `Beh` components give the outcome of calling the
corresponding host API on this field (`GetName`, `GetText`, `SetName`,
`Duplicate`).  `getNameBeh = attrErr` means the `GetName` attribute is absent,
in which case `getattr(fld, "GetName", lambda: "")()` yields `""`. -/
structure Field : Type where
  name : String
  text : String
  getNameBeh : Beh
  getTextBeh : Beh
  setNameBeh : Beh
  dupBeh : Beh
deriving DecidableEq, Repr

/-- A footprint: its property mapping (case A storage, an ordered
key/value mapping as a Python dict is), its field list (case B storage), and
the outcome of each footprint-level host call (`GetProperties`,
`SetProperty`, `ClearProperty`, `GetFields`, `Add`). -/
structure Footprint : Type where
  props : List (String × String)
  fields : List Field
  getPropsBeh : Beh
  setPropBeh : Beh
  clearPropBeh : Beh
  getFieldsBeh : Beh
  addBeh : Beh
deriving DecidableEq, Repr

/-- Python dict write `props[k] = v` / `fp.SetProperty(k, v)`: overwrite the
existing key in place, else append the new entry. -/
def setKey : List (String × String) → String → String → List (String × String)
  | [], k, v => [(k, v)]
  | (k', v') :: rest, k, v =>
      if k' = k then (k, v) :: rest else (k', v') :: setKey rest k v

/-- Python dict delete `del props[k]` / `fp.ClearProperty(k)`: remove the
entry with key `k` (the first occurrence; dict keys are unique). -/
def delKey : List (String × String) → String → List (String × String)
  | [], _ => []
  | (k', v') :: rest, k =>
      if k' = k then rest else (k', v') :: delKey rest k

/-- Python dict read `props[k]`: value at key `k`, if present. -/
def getKey : List (String × String) → String → Option String
  | [], _ => none
  | (k', v') :: rest, k =>
      if k' = k then some v' else getKey rest k

/-- Lines 23-27 of the source: scan the property keys in order and return the
first key whose trimmed lower-cased form equals `old_l`. -/
def findMatchKey : List (String × String) → String → Option String
  | [], _ => none
  | (k, _) :: rest, old_l =>
      if pyNorm k = old_l then some k else findMatchKey rest old_l

/-- Line 57: `(getattr(fld, "GetName", lambda: "")() or "")` — the name a
field reports, which is `""` when the `GetName` attribute is absent. -/
def effName (fld : Field) : String :=
  match fld.getNameBeh with
  | .attrErr => ""
  | _ => fld.name

/-- Line 60: `(getattr(fld, "GetText", lambda: "")() or "")` — the text a
field reports, which is `""` when the `GetText` attribute is absent. -/
def effText (fld : Field) : String :=
  match fld.getTextBeh with
  | .attrErr => ""
  | _ => fld.text

/-- Result of the case-B field scan (lines 55-87): an uncaught exception, no
matching field, or a first match processed, yielding the updated field list
and property mapping. -/
inductive FScan : Type
  | exn : FScan
  | nomatch : FScan
  | matched : List Field → List (String × String) → FScan
deriving DecidableEq, Repr

/-- Lines 56-87 of the source: walk the field list; at the first field whose
reported name matches `old_l`, perform the copy/rename mutation with its
fallback ladder and stop.  `GetName`/`GetText` raising a non-`AttributeError`
exception is uncaught (`exn`); every exception of `SetProperty`, `SetName`,
`Duplicate` and `Add` in this branch is caught (`except Exception`). -/
def scanFields (old_l new_field : String) (copy_instead : Bool) (fp : Footprint) :
    List Field → FScan
  | [] => .nomatch
  | fld :: rest =>
      if fld.getNameBeh = .otherErr then .exn
      else if pyNorm (effName fld) = old_l then
        if fld.getTextBeh = .otherErr then .exn
        else
          let value := effText fld
          if copy_instead then
            if fp.setPropBeh = .ok then
              .matched (fld :: rest) (setKey fp.props new_field value)
            else if fld.dupBeh = .ok ∧ fld.setNameBeh = .ok ∧ fp.addBeh = .ok then
              .matched (fld :: (rest ++ [{ fld with name := new_field }])) fp.props
            else
              .matched (fld :: rest) fp.props
          else
            if fld.setNameBeh = .ok then
              .matched ({ fld with name := new_field } :: rest) fp.props
            else if fp.setPropBeh = .ok then
              .matched (fld :: rest) (setKey fp.props new_field value)
            else
              .matched (fld :: rest) fp.props
      else
        match scanFields old_l new_field copy_instead fp rest with
        | .exn => .exn
        | .nomatch => .nomatch
        | .matched rest' props' => .matched (fld :: rest') props'

/-- Result of processing one footprint: normal completion with the updated
footprint and the increments to `count_modified` and `count_found`, or an
uncaught exception that aborts the whole pass. -/
inductive PRes : Type
  | ok : Footprint → Nat → Nat → PRes
  | exn : Footprint → PRes
deriving DecidableEq, Repr

/-- Case B of the loop body (lines 49-90): fetch the field list
(`AttributeError` yields `[]`, any other exception is uncaught) and scan it. -/
def processCaseB (old_l new_field : String) (copy_instead : Bool) (fp : Footprint) : PRes :=
  match fp.getFieldsBeh with
  | .otherErr => .exn fp
  | .attrErr => .ok fp 0 0
  | .ok =>
      match scanFields old_l new_field copy_instead fp fp.fields with
      | .exn => .exn fp
      | .nomatch => .ok fp 0 0
      | .matched fields' props' => .ok { fp with fields := fields', props := props' } 1 1

/-- One iteration of the footprint loop (lines 18-90).  Case A (lines 21-47):
the outer `try` catches only `AttributeError`, so `GetProperties` or
`SetProperty` raising any other exception aborts the pass; `SetProperty`
raising `AttributeError` falls back to `props[new_field] = value`, and any
exception of `ClearProperty` falls back to `del props[match_key]`, both with
the same effect on the mapping.  Without a property match, fall through to
case B. -/
def processFootprint (old_l new_field : String) (copy_instead : Bool) (fp : Footprint) : PRes :=
  match fp.getPropsBeh with
  | .otherErr => .exn fp
  | .attrErr => processCaseB old_l new_field copy_instead fp
  | .ok =>
      match findMatchKey fp.props old_l with
      | none => processCaseB old_l new_field copy_instead fp
      | some match_key =>
          let value := (getKey fp.props match_key).getD ""
          match fp.setPropBeh with
          | .otherErr => .exn fp
          | _ =>
              let props1 := setKey fp.props new_field value
              let props2 := if copy_instead then props1 else delKey props1 match_key
              .ok { fp with props := props2 } 1 1

/-- Result of `_rename_fields_on_board`: the final board with the two
counters `(count_modified, count_found)`, or the board as left by an
uncaught exception (no counters are returned then). -/
inductive BRes : Type
  | ok : List Footprint → Nat → Nat → BRes
  | exn : List Footprint → BRes
deriving DecidableEq, Repr

/-- The footprint loop of lines 18-90 over the whole board, with an uncaught
exception aborting the remaining iterations. -/
def runBoard (old_l new_field : String) (copy_instead : Bool) : List Footprint → BRes
  | [] => .ok [] 0 0
  | fp :: rest =>
      match processFootprint old_l new_field copy_instead fp with
      | .exn fp' => .exn (fp' :: rest)
      | .ok fp' dm df =>
          match runBoard old_l new_field copy_instead rest with
          | .exn rest' => .exn (fp' :: rest')
          | .ok rest' m f => .ok (fp' :: rest') (dm + m) (df + f)

/-- `_rename_fields_on_board(board, old_field, new_field, copy_instead)`:
normalize `old_field` once (line 14) and run the loop.  Returns
`(count_modified, count_found)` on normal completion. -/
def renameFieldsOnBoard (board : List Footprint) (old_field new_field : String)
    (copy_instead : Bool) : BRes :=
  runBoard (pyNorm old_field) new_field copy_instead board

/-- Outcome of `RenameFieldPlugin.Run` after the dialog was confirmed:
a validation warning (operation not invoked), the summary message with the
two counters, or an exception escaping `_rename_fields_on_board`. -/
inductive PluginOutcome : Type
  | warned : List Footprint → PluginOutcome
  | done : List Footprint → Nat → Nat → PluginOutcome
  | raised : List Footprint → PluginOutcome
deriving DecidableEq, Repr

/-- Lines 162-172 of the source: `get_values` strips both dialog inputs;
`Run` then warns and stops if either stripped name is empty or if the two
names are equal after `strip().lower()`, and otherwise invokes
`_rename_fields_on_board`. -/
def pluginRun (board : List Footprint) (rawOld rawNew : String) (copy_instead : Bool) :
    PluginOutcome :=
  if pyStripStr rawOld = "" ∨ pyStripStr rawNew = "" then .warned board
  else if pyNorm (pyStripStr rawOld) = pyNorm (pyStripStr rawNew) then .warned board
  else
    match renameFieldsOnBoard board (pyStripStr rawOld) (pyStripStr rawNew) copy_instead with
    | .ok board' m f => .done board' m f
    | .exn board' => .raised board'

end RenamePlugin

namespace RenamePlugin

/-! ### Helper lemmas about the property-mapping operations -/

theorem setKey_cons_eq (rest : List (String × String)) (k v v' : String) :
    setKey ((k, v') :: rest) k v = (k, v) :: rest := by
  simp [setKey]

theorem setKey_cons_ne (rest : List (String × String)) (k v k' v' : String) (h : k' ≠ k) :
    setKey ((k', v') :: rest) k v = (k', v') :: setKey rest k v := by
  simp [setKey, h]

theorem delKey_cons_eq (rest : List (String × String)) (k v' : String) :
    delKey ((k, v') :: rest) k = rest := by
  simp [delKey]

theorem delKey_cons_ne (rest : List (String × String)) (k k' v' : String) (h : k' ≠ k) :
    delKey ((k', v') :: rest) k = (k', v') :: delKey rest k := by
  simp [delKey, h]

theorem getKey_cons_eq (rest : List (String × String)) (k v' : String) :
    getKey ((k, v') :: rest) k = some v' := by
  simp [getKey]

theorem getKey_cons_ne (rest : List (String × String)) (k k' v' : String) (h : k' ≠ k) :
    getKey ((k', v') :: rest) k = getKey rest k := by
  simp [getKey, h]

theorem getKey_setKey_self (p : List (String × String)) (k v : String) :
    getKey (setKey p k v) k = some v := by
  induction p with
  | nil => simp [setKey, getKey]
  | cons kv rest ih =>
      obtain ⟨k', v'⟩ := kv
      by_cases h : k' = k
      · subst h
        rw [setKey_cons_eq, getKey_cons_eq]
      · rw [setKey_cons_ne rest k v k' v' h, getKey_cons_ne (setKey rest k v) k k' v' h, ih]

theorem getKey_setKey_ne (p : List (String × String)) (k v k' : String) (h : k' ≠ k) :
    getKey (setKey p k v) k' = getKey p k' := by
  induction p with
  | nil => simp [setKey, getKey, Ne.symm h]
  | cons kv rest ih =>
      obtain ⟨a, b⟩ := kv
      by_cases ha : a = k
      · subst ha
        rw [setKey_cons_eq, getKey_cons_ne rest k' a v (Ne.symm h),
          getKey_cons_ne rest k' a b (Ne.symm h)]
      · by_cases hb : a = k'
        · subst hb
          rw [setKey_cons_ne rest k v a b ha, getKey_cons_eq, getKey_cons_eq]
        · rw [setKey_cons_ne rest k v a b ha, getKey_cons_ne (setKey rest k v) k' a b hb,
            getKey_cons_ne rest k' a b hb, ih]

theorem getKey_delKey_ne (p : List (String × String)) (k k' : String) (h : k' ≠ k) :
    getKey (delKey p k) k' = getKey p k' := by
  induction p with
  | nil => simp [delKey, getKey]
  | cons kv rest ih =>
      obtain ⟨a, b⟩ := kv
      by_cases ha : a = k
      · subst ha
        rw [delKey_cons_eq, getKey_cons_ne rest k' a b (Ne.symm h)]
      · by_cases hb : a = k'
        · subst hb
          rw [delKey_cons_ne rest k a b ha, getKey_cons_eq, getKey_cons_eq]
        · rw [delKey_cons_ne rest k a b ha, getKey_cons_ne (delKey rest k) k' a b hb,
            getKey_cons_ne rest k' a b hb, ih]

theorem getKey_eq_none_of_not_mem (p : List (String × String)) (k : String)
    (h : k ∉ p.map Prod.fst) : getKey p k = none := by
  induction p with
  | nil => simp [getKey]
  | cons kv rest ih =>
      obtain ⟨a, b⟩ := kv
      simp only [List.map_cons, List.mem_cons] at h
      push_neg at h
      rw [getKey_cons_ne rest k a b (Ne.symm h.1), ih h.2]

theorem mem_keys_setKey (p : List (String × String)) (k v a : String)
    (h : a ∈ (setKey p k v).map Prod.fst) : a ∈ p.map Prod.fst ∨ a = k := by
  induction p with
  | nil =>
      simp only [setKey, List.map_cons, List.map_nil, List.mem_cons,
        List.not_mem_nil, or_false] at h
      exact Or.inr h
  | cons kv rest ih =>
      obtain ⟨k', v'⟩ := kv
      by_cases hk : k' = k
      · subst hk
        rw [setKey_cons_eq] at h
        simp only [List.map_cons, List.mem_cons] at h
        simp only [List.map_cons, List.mem_cons]
        tauto
      · rw [setKey_cons_ne _ _ _ _ _ hk] at h
        simp only [List.map_cons, List.mem_cons] at h
        simp only [List.map_cons, List.mem_cons]
        rcases h with h | h
        · tauto
        · rcases ih h with h' | h' <;> tauto

theorem nodup_keys_setKey (p : List (String × String)) (k v : String)
    (h : (p.map Prod.fst).Nodup) : ((setKey p k v).map Prod.fst).Nodup := by
  induction p with
  | nil => simp [setKey]
  | cons kv rest ih =>
      obtain ⟨k', v'⟩ := kv
      simp only [List.map_cons, List.nodup_cons] at h
      by_cases hk : k' = k
      · subst hk
        rw [setKey_cons_eq]
        simp only [List.map_cons, List.nodup_cons]
        exact h
      · rw [setKey_cons_ne _ _ _ _ _ hk]
        simp only [List.map_cons, List.nodup_cons]
        refine ⟨fun hmem => ?_, ih h.2⟩
        rcases mem_keys_setKey rest k v k' hmem with h' | h'
        · exact h.1 h'
        · exact hk h'

theorem getKey_delKey_self (p : List (String × String)) (k : String)
    (h : (p.map Prod.fst).Nodup) : getKey (delKey p k) k = none := by
  induction p with
  | nil => simp [delKey, getKey]
  | cons kv rest ih =>
      obtain ⟨a, b⟩ := kv
      simp only [List.map_cons, List.nodup_cons] at h
      by_cases ha : a = k
      · subst ha
        rw [delKey_cons_eq]
        exact getKey_eq_none_of_not_mem rest a h.1
      · rw [delKey_cons_ne _ _ _ _ ha, getKey_cons_ne _ _ _ _ ha, ih h.2]

theorem mem_setKey_of_mem (p : List (String × String)) (k v : String)
    (kv : String × String) (hne : kv.1 ≠ k) (h : kv ∈ p) : kv ∈ setKey p k v := by
  induction p with
  | nil => simp at h
  | cons hd rest ih =>
      obtain ⟨a, b⟩ := hd
      rcases List.mem_cons.mp h with h0 | h0
      · by_cases ha : a = k
        · exact absurd (by rw [h0]; exact ha) hne
        · rw [setKey_cons_ne _ _ _ _ _ ha]
          exact List.mem_cons.mpr (Or.inl h0)
      · by_cases ha : a = k
        · subst ha
          rw [setKey_cons_eq]
          exact List.mem_cons_of_mem _ h0
        · rw [setKey_cons_ne _ _ _ _ _ ha]
          exact List.mem_cons_of_mem _ (ih h0)

theorem mem_delKey_of_mem (p : List (String × String)) (k : String)
    (kv : String × String) (hne : kv.1 ≠ k) (h : kv ∈ p) : kv ∈ delKey p k := by
  induction p with
  | nil => simp at h
  | cons hd rest ih =>
      obtain ⟨a, b⟩ := hd
      rcases List.mem_cons.mp h with h0 | h0
      · by_cases ha : a = k
        · exact absurd (by rw [h0]; exact ha) hne
        · rw [delKey_cons_ne _ _ _ _ ha]
          exact List.mem_cons.mpr (Or.inl h0)
      · by_cases ha : a = k
        · subst ha
          rw [delKey_cons_eq]
          exact h0
        · rw [delKey_cons_ne _ _ _ _ ha]
          exact List.mem_cons_of_mem _ (ih h0)

theorem mem_of_mem_delKey (p : List (String × String)) (k : String)
    (kv : String × String) (h : kv ∈ delKey p k) : kv ∈ p := by
  induction p with
  | nil => simp [delKey] at h
  | cons hd rest ih =>
      obtain ⟨a, b⟩ := hd
      by_cases ha : a = k
      · subst ha
        rw [delKey_cons_eq] at h
        exact List.mem_cons_of_mem _ h
      · rw [delKey_cons_ne _ _ _ _ ha] at h
        rcases List.mem_cons.mp h with h0 | h0
        · exact List.mem_cons.mpr (Or.inl h0)
        · exact List.mem_cons_of_mem _ (ih h0)

theorem mem_setKey_cases (p : List (String × String)) (k v : String)
    (kv : String × String) (h : kv ∈ setKey p k v) : kv ∈ p ∨ kv = (k, v) := by
  induction p with
  | nil =>
      simp only [setKey, List.mem_cons, List.not_mem_nil, or_false] at h
      exact Or.inr h
  | cons hd rest ih =>
      obtain ⟨a, b⟩ := hd
      by_cases ha : a = k
      · subst ha
        rw [setKey_cons_eq] at h
        rcases List.mem_cons.mp h with h0 | h0
        · exact Or.inr h0
        · exact Or.inl (List.mem_cons_of_mem _ h0)
      · rw [setKey_cons_ne _ _ _ _ _ ha] at h
        rcases List.mem_cons.mp h with h0 | h0
        · exact Or.inl (List.mem_cons.mpr (Or.inl h0))
        · rcases ih h0 with h' | h'
          · exact Or.inl (List.mem_cons_of_mem _ h')
          · exact Or.inr h'

/-! ### Reduction lemmas for the matching scan and the per-footprint step -/

theorem findMatchKey_cons_match (rest : List (String × String)) (k v old_l : String)
    (h : pyNorm k = old_l) : findMatchKey ((k, v) :: rest) old_l = some k := by
  simp [findMatchKey, h]

theorem findMatchKey_cons_no (rest : List (String × String)) (k v old_l : String)
    (h : pyNorm k ≠ old_l) :
    findMatchKey ((k, v) :: rest) old_l = findMatchKey rest old_l := by
  simp [findMatchKey, h]

theorem findMatchKey_none (p : List (String × String)) (old_l : String)
    (h : ∀ kv ∈ p, pyNorm kv.1 ≠ old_l) : findMatchKey p old_l = none := by
  induction p with
  | nil => rfl
  | cons kv rest ih =>
      obtain ⟨k, v⟩ := kv
      rw [findMatchKey_cons_no rest k v old_l (h (k, v) (List.mem_cons_self _ _))]
      exact ih fun kv hm => h kv (List.mem_cons_of_mem _ hm)

theorem findMatchKey_some_norm (p : List (String × String)) (old_l k : String)
    (h : findMatchKey p old_l = some k) : pyNorm k = old_l := by
  induction p with
  | nil => simp [findMatchKey] at h
  | cons kv rest ih =>
      obtain ⟨a, b⟩ := kv
      by_cases ha : pyNorm a = old_l
      · rw [findMatchKey_cons_match rest a b old_l ha] at h
        cases h
        exact ha
      · rw [findMatchKey_cons_no rest a b old_l ha] at h
        exact ih h

theorem findMatchKey_append_no (pre l : List (String × String)) (old_l : String)
    (h : ∀ kv ∈ pre, pyNorm kv.1 ≠ old_l) :
    findMatchKey (pre ++ l) old_l = findMatchKey l old_l := by
  induction pre with
  | nil => rfl
  | cons kv rest ih =>
      obtain ⟨a, b⟩ := kv
      rw [List.cons_append,
        findMatchKey_cons_no _ a b old_l (h (a, b) (List.mem_cons_self _ _))]
      exact ih fun kv hm => h kv (List.mem_cons_of_mem _ hm)

theorem getKey_append_cons (pre post : List (String × String)) (k v : String)
    (h : ∀ kv ∈ pre, kv.1 ≠ k) :
    getKey (pre ++ (k, v) :: post) k = some v := by
  induction pre with
  | nil => exact getKey_cons_eq post k v
  | cons kv rest ih =>
      obtain ⟨a, b⟩ := kv
      rw [List.cons_append, getKey_cons_ne _ k a b (h (a, b) (List.mem_cons_self _ _))]
      exact ih fun kv hm => h kv (List.mem_cons_of_mem _ hm)

theorem scanFields_cons_exn (old_l n : String) (c : Bool) (fp : Footprint)
    (fld : Field) (rest : List Field) (h : fld.getNameBeh = .otherErr) :
    scanFields old_l n c fp (fld :: rest) = .exn := by
  simp [scanFields, h]

theorem scanFields_cons_skip (old_l n : String) (c : Bool) (fp : Footprint)
    (fld : Field) (rest : List Field)
    (h1 : fld.getNameBeh ≠ .otherErr) (h2 : pyNorm (effName fld) ≠ old_l) :
    scanFields old_l n c fp (fld :: rest) =
      match scanFields old_l n c fp rest with
      | .exn => .exn
      | .nomatch => .nomatch
      | .matched rest' props' => .matched (fld :: rest') props' := by
  simp [scanFields, h1, h2]

theorem scanFields_cons_match (old_l n : String) (c : Bool) (fp : Footprint)
    (fld : Field) (rest : List Field)
    (h1 : fld.getNameBeh ≠ .otherErr) (h2 : pyNorm (effName fld) = old_l)
    (h3 : fld.getTextBeh ≠ .otherErr) :
    scanFields old_l n c fp (fld :: rest) =
      if c then
        (if fp.setPropBeh = .ok then
          .matched (fld :: rest) (setKey fp.props n (effText fld))
        else if fld.dupBeh = .ok ∧ fld.setNameBeh = .ok ∧ fp.addBeh = .ok then
          .matched (fld :: (rest ++ [{ fld with name := n }])) fp.props
        else
          .matched (fld :: rest) fp.props)
      else
        (if fld.setNameBeh = .ok then
          .matched ({ fld with name := n } :: rest) fp.props
        else if fp.setPropBeh = .ok then
          .matched (fld :: rest) (setKey fp.props n (effText fld))
        else
          .matched (fld :: rest) fp.props) := by
  simp [scanFields, h1, h2, h3]

theorem scanFields_append_skip (old_l n : String) (c : Bool) (fp : Footprint)
    (pre l : List Field)
    (h : ∀ g ∈ pre, g.getNameBeh ≠ .otherErr ∧ pyNorm (effName g) ≠ old_l) :
    scanFields old_l n c fp (pre ++ l) =
      match scanFields old_l n c fp l with
      | .exn => .exn
      | .nomatch => .nomatch
      | .matched l' props' => .matched (pre ++ l') props' := by
  induction pre with
  | nil =>
      simp only [List.nil_append]
      cases hs : scanFields old_l n c fp l <;> simp [hs]
  | cons g rest ih =>
      obtain ⟨hg1, hg2⟩ := h g (List.mem_cons_self _ _)
      rw [List.cons_append, scanFields_cons_skip old_l n c fp g (rest ++ l) hg1 hg2,
        ih fun g' hm => h g' (List.mem_cons_of_mem _ hm)]
      cases hs : scanFields old_l n c fp l <;> simp [hs]

theorem processCaseB_fieldsOther (old_l n : String) (c : Bool) (fp : Footprint)
    (h : fp.getFieldsBeh = .otherErr) : processCaseB old_l n c fp = .exn fp := by
  simp [processCaseB, h]

theorem processCaseB_fieldsAttr (old_l n : String) (c : Bool) (fp : Footprint)
    (h : fp.getFieldsBeh = .attrErr) : processCaseB old_l n c fp = .ok fp 0 0 := by
  simp [processCaseB, h]

theorem processCaseB_fieldsOk (old_l n : String) (c : Bool) (fp : Footprint)
    (h : fp.getFieldsBeh = .ok) :
    processCaseB old_l n c fp =
      match scanFields old_l n c fp fp.fields with
      | .exn => .exn fp
      | .nomatch => .ok fp 0 0
      | .matched fields' props' => .ok { fp with fields := fields', props := props' } 1 1 := by
  simp [processCaseB, h]

theorem processFootprint_propsOther (old_l n : String) (c : Bool) (fp : Footprint)
    (h : fp.getPropsBeh = .otherErr) : processFootprint old_l n c fp = .exn fp := by
  simp [processFootprint, h]

theorem processFootprint_propsAttr (old_l n : String) (c : Bool) (fp : Footprint)
    (h : fp.getPropsBeh = .attrErr) :
    processFootprint old_l n c fp = processCaseB old_l n c fp := by
  simp [processFootprint, h]

theorem processFootprint_noMatch (old_l n : String) (c : Bool) (fp : Footprint)
    (h1 : fp.getPropsBeh = .ok) (h2 : findMatchKey fp.props old_l = none) :
    processFootprint old_l n c fp = processCaseB old_l n c fp := by
  simp [processFootprint, h1, h2]

theorem processFootprint_match_exn (old_l n : String) (c : Bool) (fp : Footprint)
    (k : String) (h1 : fp.getPropsBeh = .ok) (h2 : findMatchKey fp.props old_l = some k)
    (h3 : fp.setPropBeh = .otherErr) : processFootprint old_l n c fp = .exn fp := by
  simp [processFootprint, h1, h2, h3]

theorem processFootprint_match_ok (old_l n : String) (c : Bool) (fp : Footprint)
    (k : String) (h1 : fp.getPropsBeh = .ok) (h2 : findMatchKey fp.props old_l = some k)
    (h3 : fp.setPropBeh ≠ .otherErr) :
    processFootprint old_l n c fp =
      .ok { fp with props :=
        (if c then setKey fp.props n ((getKey fp.props k).getD "")
         else delKey (setKey fp.props n ((getKey fp.props k).getD "")) k) } 1 1 := by
  cases hsp : fp.setPropBeh with
  | otherErr => exact absurd hsp h3
  | ok => simp [processFootprint, h1, h2, hsp]
  | attrErr => simp [processFootprint, h1, h2, hsp]

/-! ### Counter facts -/

theorem procOk_counters (old_l n : String) (c : Bool) (fp fp' : Footprint) (dm df : Nat)
    (h : processFootprint old_l n c fp = .ok fp' dm df) :
    (dm = 0 ∧ df = 0) ∨ (dm = 1 ∧ df = 1) := by
  unfold processFootprint processCaseB at h
  repeat' split at h
  all_goals try simp_all
  all_goals obtain ⟨-, h1, h2⟩ := h
  all_goals omega

theorem runBoard_ok_facts (old_l n : String) (c : Bool) :
    ∀ (board board' : List Footprint) (m f : Nat),
      runBoard old_l n c board = .ok board' m f →
      m = f ∧ m ≤ board.length ∧ f ≤ board.length := by
  intro board
  induction board with
  | nil =>
      intro board' m f h
      simp only [runBoard, BRes.ok.injEq] at h
      obtain ⟨h1, h2, h3⟩ := h
      subst h2
      subst h3
      simp
  | cons fp rest ih =>
      intro board' m f h
      cases hp : processFootprint old_l n c fp with
      | exn fp1 => simp [runBoard, hp] at h
      | ok fp1 dm df =>
          cases hr : runBoard old_l n c rest with
          | exn rest1 => simp [runBoard, hp, hr] at h
          | ok rest1 m1 f1 =>
              simp only [runBoard, hp, hr, BRes.ok.injEq] at h
              obtain ⟨hb, hm, hf⟩ := h
              subst hm
              subst hf
              obtain ⟨he, hle, hle'⟩ := ih rest1 m1 f1 hr
              rcases procOk_counters old_l n c fp fp1 dm df hp with ⟨e1, e2⟩ | ⟨e1, e2⟩ <;>
                · subst e1
                  subst e2
                  simp only [List.length_cons]
                  omega

/-! ### Further facts about the field scan -/

theorem scanFields_cons_text_exn (old_l n : String) (c : Bool) (fp : Footprint)
    (fld : Field) (rest : List Field)
    (h1 : fld.getNameBeh ≠ .otherErr) (h2 : pyNorm (effName fld) = old_l)
    (h3 : fld.getTextBeh = .otherErr) :
    scanFields old_l n c fp (fld :: rest) = .exn := by
  simp [scanFields, h1, h2, h3]

theorem processCaseB_scan_exn (old_l n : String) (c : Bool) (fp : Footprint)
    (h : fp.getFieldsBeh = .ok) (hs : scanFields old_l n c fp fp.fields = .exn) :
    processCaseB old_l n c fp = .exn fp := by
  simp [processCaseB, h, hs]

theorem processCaseB_scan_nomatch (old_l n : String) (c : Bool) (fp : Footprint)
    (h : fp.getFieldsBeh = .ok) (hs : scanFields old_l n c fp fp.fields = .nomatch) :
    processCaseB old_l n c fp = .ok fp 0 0 := by
  simp [processCaseB, h, hs]

theorem processCaseB_scan_matched (old_l n : String) (c : Bool) (fp : Footprint)
    (fl : List Field) (pr : List (String × String))
    (h : fp.getFieldsBeh = .ok) (hs : scanFields old_l n c fp fp.fields = .matched fl pr) :
    processCaseB old_l n c fp = .ok { fp with fields := fl, props := pr } 1 1 := by
  simp [processCaseB, h, hs]

theorem scanFields_no_match (old_l n : String) (c : Bool) (fp : Footprint) :
    ∀ l : List Field, (∀ g ∈ l, pyNorm (effName g) ≠ old_l) →
      scanFields old_l n c fp l = .nomatch ∨ scanFields old_l n c fp l = .exn := by
  intro l
  induction l with
  | nil => intro _; exact Or.inl rfl
  | cons g rest ih =>
      intro h
      by_cases hg : g.getNameBeh = .otherErr
      · exact Or.inr (scanFields_cons_exn old_l n c fp g rest hg)
      · rw [scanFields_cons_skip old_l n c fp g rest hg (h g (List.mem_cons_self _ _))]
        rcases ih (fun g' hm => h g' (List.mem_cons_of_mem _ hm)) with h' | h'
        · rw [h']
          exact Or.inl rfl
        · rw [h']
          exact Or.inr rfl

theorem scanFields_ne_exn (old_l n : String) (c : Bool) (fp : Footprint) :
    ∀ l : List Field,
      (∀ g ∈ l, g.getNameBeh ≠ .otherErr ∧ g.getTextBeh ≠ .otherErr) →
      scanFields old_l n c fp l ≠ .exn := by
  intro l
  induction l with
  | nil => intro _; simp [scanFields]
  | cons g rest ih =>
      intro h
      obtain ⟨h1, h2⟩ := h g (List.mem_cons_self _ _)
      by_cases hm : pyNorm (effName g) = old_l
      · rw [scanFields_cons_match old_l n c fp g rest h1 hm h2]
        split_ifs <;> simp
      · rw [scanFields_cons_skip old_l n c fp g rest h1 hm]
        have hne := ih fun g' hm' => h g' (List.mem_cons_of_mem _ hm')
        cases hs : scanFields old_l n c fp rest
        next => exact absurd hs hne
        next => simp
        next l' p' => simp

theorem scanFields_cons_match_post (old_l n : String) (c : Bool) (fp : Footprint)
    (fld : Field) (post : List Field)
    (h1 : fld.getNameBeh ≠ .otherErr) (h2 : pyNorm (effName fld) = old_l)
    (h3 : fld.getTextBeh ≠ .otherErr) :
    ∃ X p', scanFields old_l n c fp (fld :: post) = .matched X p' ∧
      ∀ g ∈ post, g ∈ X := by
  rw [scanFields_cons_match old_l n c fp fld post h1 h2 h3]
  split_ifs <;> exact ⟨_, _, rfl, fun g hg => by simp [hg]⟩

theorem scanFields_matched_shape (old_l n : String) (c : Bool) (fp : Footprint) :
    ∀ (l fl : List Field) (pr : List (String × String)),
      scanFields old_l n c fp l = .matched fl pr →
      (∀ kv ∈ pr, kv ∈ fp.props ∨ kv.1 = n) ∧
      (∀ fld' ∈ fl, (∃ fld ∈ l, fld'.name = fld.name) ∨ fld'.name = n) := by
  intro l
  induction l with
  | nil => intro fl pr h; simp [scanFields] at h
  | cons g rest ih =>
      intro fl pr h
      by_cases h1 : g.getNameBeh = .otherErr
      · rw [scanFields_cons_exn old_l n c fp g rest h1] at h
        simp at h
      · by_cases h2 : pyNorm (effName g) = old_l
        · by_cases h3 : g.getTextBeh = .otherErr
          · rw [scanFields_cons_text_exn old_l n c fp g rest h1 h2 h3] at h
            simp at h
          · rw [scanFields_cons_match old_l n c fp g rest h1 h2 h3] at h
            split_ifs at h
            · injection h with hfl hpr
              subst hfl
              subst hpr
              refine ⟨?_, ?_⟩
              · intro kv hkv
                rcases mem_setKey_cases fp.props n (effText g) kv hkv with hin | heq
                · exact Or.inl hin
                · exact Or.inr (by rw [heq])
              · intro fld' hfld'
                rcases List.mem_cons.mp hfld' with he | he
                · exact Or.inl ⟨g, List.mem_cons_self _ _, by rw [he]⟩
                · exact Or.inl ⟨fld', List.mem_cons_of_mem _ he, rfl⟩
            · injection h with hfl hpr
              subst hfl
              subst hpr
              refine ⟨fun kv hkv => Or.inl hkv, ?_⟩
              intro fld' hfld'
              simp only [List.mem_cons, List.mem_append, List.not_mem_nil, or_false] at hfld'
              rcases hfld' with he | he | he
              · exact Or.inl ⟨g, List.mem_cons_self _ _, by rw [he]⟩
              · exact Or.inl ⟨fld', List.mem_cons_of_mem _ he, rfl⟩
              · exact Or.inr (by rw [he])
            · injection h with hfl hpr
              subst hfl
              subst hpr
              refine ⟨fun kv hkv => Or.inl hkv, ?_⟩
              intro fld' hfld'
              rcases List.mem_cons.mp hfld' with he | he
              · exact Or.inl ⟨g, List.mem_cons_self _ _, by rw [he]⟩
              · exact Or.inl ⟨fld', List.mem_cons_of_mem _ he, rfl⟩
            · injection h with hfl hpr
              subst hfl
              subst hpr
              refine ⟨fun kv hkv => Or.inl hkv, ?_⟩
              intro fld' hfld'
              rcases List.mem_cons.mp hfld' with he | he
              · exact Or.inr (by rw [he])
              · exact Or.inl ⟨fld', List.mem_cons_of_mem _ he, rfl⟩
            · injection h with hfl hpr
              subst hfl
              subst hpr
              refine ⟨?_, ?_⟩
              · intro kv hkv
                rcases mem_setKey_cases fp.props n (effText g) kv hkv with hin | heq
                · exact Or.inl hin
                · exact Or.inr (by rw [heq])
              · intro fld' hfld'
                rcases List.mem_cons.mp hfld' with he | he
                · exact Or.inl ⟨g, List.mem_cons_self _ _, by rw [he]⟩
                · exact Or.inl ⟨fld', List.mem_cons_of_mem _ he, rfl⟩
            · injection h with hfl hpr
              subst hfl
              subst hpr
              refine ⟨fun kv hkv => Or.inl hkv, ?_⟩
              intro fld' hfld'
              rcases List.mem_cons.mp hfld' with he | he
              · exact Or.inl ⟨g, List.mem_cons_self _ _, by rw [he]⟩
              · exact Or.inl ⟨fld', List.mem_cons_of_mem _ he, rfl⟩
        · rw [scanFields_cons_skip old_l n c fp g rest h1 h2] at h
          cases hs : scanFields old_l n c fp rest
          next =>
            simp [hs] at h
          next =>
            simp [hs] at h
          next l' p' =>
            simp only [hs, FScan.matched.injEq] at h
            obtain ⟨hfl, hpr⟩ := h
            subst hfl
            subst hpr
            obtain ⟨ihp, ihf⟩ := ih l' p' hs
            refine ⟨ihp, ?_⟩
            intro fld' hfld'
            rcases List.mem_cons.mp hfld' with he | he
            · exact Or.inl ⟨g, List.mem_cons_self _ _, by rw [he]⟩
            · rcases ihf fld' he with ⟨fld, hmem, hname⟩ | hname
              · exact Or.inl ⟨fld, List.mem_cons_of_mem _ hmem, hname⟩
              · exact Or.inr hname

/-! ### Abort-freedom and the per-component decomposition of the pass -/

theorem processFootprint_no_abort (old_l n : String) (c : Bool) (fp : Footprint)
    (h1 : fp.getPropsBeh ≠ .otherErr)
    (h2 : fp.getPropsBeh = .ok → findMatchKey fp.props old_l ≠ none →
      fp.setPropBeh ≠ .otherErr)
    (h3 : fp.getFieldsBeh ≠ .otherErr)
    (h4 : ∀ fld ∈ fp.fields, fld.getNameBeh ≠ .otherErr ∧ fld.getTextBeh ≠ .otherErr) :
    ∃ fp' dm df, processFootprint old_l n c fp = .ok fp' dm df := by
  have hcaseB : ∃ fp' dm df, processCaseB old_l n c fp = .ok fp' dm df := by
    cases hfb : fp.getFieldsBeh with
    | otherErr => exact absurd hfb h3
    | attrErr => exact ⟨fp, 0, 0, processCaseB_fieldsAttr old_l n c fp hfb⟩
    | ok =>
        cases hs : scanFields old_l n c fp fp.fields
        next => exact absurd hs (scanFields_ne_exn old_l n c fp fp.fields h4)
        next => exact ⟨fp, 0, 0, processCaseB_scan_nomatch old_l n c fp hfb hs⟩
        next fl pr =>
          exact ⟨_, 1, 1, processCaseB_scan_matched old_l n c fp fl pr hfb hs⟩
  cases hgp : fp.getPropsBeh with
  | otherErr => exact absurd hgp h1
  | attrErr =>
      obtain ⟨fp', dm, df, hB⟩ := hcaseB
      exact ⟨fp', dm, df, by rw [processFootprint_propsAttr old_l n c fp hgp]; exact hB⟩
  | ok =>
      cases hk : findMatchKey fp.props old_l with
      | none =>
          obtain ⟨fp', dm, df, hB⟩ := hcaseB
          exact ⟨fp', dm, df, by rw [processFootprint_noMatch old_l n c fp hgp hk]; exact hB⟩
      | some k =>
          have hsp : fp.setPropBeh ≠ .otherErr := h2 hgp (by rw [hk]; simp)
          exact ⟨_, 1, 1, processFootprint_match_ok old_l n c fp k hgp hk hsp⟩

theorem runBoard_no_abort (old_l n : String) (c : Bool) :
    ∀ board : List Footprint,
      (∀ fp ∈ board, fp.getPropsBeh ≠ .otherErr ∧
        (fp.getPropsBeh = .ok → findMatchKey fp.props old_l ≠ none →
          fp.setPropBeh ≠ .otherErr) ∧
        fp.getFieldsBeh ≠ .otherErr ∧
        ∀ fld ∈ fp.fields, fld.getNameBeh ≠ .otherErr ∧ fld.getTextBeh ≠ .otherErr) →
      ∃ board' m f, runBoard old_l n c board = .ok board' m f := by
  intro board
  induction board with
  | nil => intro _; exact ⟨[], 0, 0, rfl⟩
  | cons fp rest ih =>
      intro h
      obtain ⟨hh1, hh2, hh3, hh4⟩ := h fp (List.mem_cons_self _ _)
      obtain ⟨fp', dm, df, hp⟩ := processFootprint_no_abort old_l n c fp hh1 hh2 hh3 hh4
      obtain ⟨rest', m, f, hr⟩ := ih fun g hm => h g (List.mem_cons_of_mem _ hm)
      exact ⟨fp' :: rest', dm + m, df + f, by simp [runBoard, hp, hr]⟩

theorem runBoard_ok_forall2 (old_l n : String) (c : Bool) :
    ∀ (board board' : List Footprint) (m f : Nat),
      runBoard old_l n c board = .ok board' m f →
      List.Forall₂
        (fun fp fp' => ∃ dm df, processFootprint old_l n c fp = .ok fp' dm df)
        board board' := by
  intro board
  induction board with
  | nil =>
      intro board' m f h
      simp only [runBoard, BRes.ok.injEq] at h
      rw [← h.1]
      exact List.Forall₂.nil
  | cons fp rest ih =>
      intro board' m f h
      cases hp : processFootprint old_l n c fp with
      | exn fp1 => simp [runBoard, hp] at h
      | ok fp1 dm df =>
          cases hr : runBoard old_l n c rest with
          | exn rest1 => simp [runBoard, hp, hr] at h
          | ok rest1 m1 f1 =>
              simp only [runBoard, hp, hr, BRes.ok.injEq] at h
              rw [← h.1]
              exact List.Forall₂.cons ⟨dm, df, hp⟩ (ih rest1 m1 f1 hr)

/-! ### Claim theorems -/

/-- Claim C1: for every board and request, whenever `_rename_fields_on_board`
returns normally, the two returned counters are equal:
`count_found = count_modified` (each found match always proceeds to an
attempted modification). -/
theorem found_count_eq_modified_count (board board' : List Footprint)
    (old_field new_field : String) (copy_instead : Bool) (m f : Nat)
    (h : renameFieldsOnBoard board old_field new_field copy_instead = .ok board' m f) :
    f = m :=
  (runBoard_ok_facts (pyNorm old_field) new_field copy_instead board board' m f h).1.symm

/-- Witness for C1 at the spec's own scenario input. -/
theorem found_count_eq_modified_count_witness :
    renameFieldsOnBoard
        [{ props := [("PART NUMBER", "ABC123")], fields := [], getPropsBeh := .ok,
           setPropBeh := .ok, clearPropBeh := .ok, getFieldsBeh := .ok, addBeh := .ok }]
        "PART NUMBER" "MPN" false =
      .ok [{ props := [("MPN", "ABC123")], fields := [], getPropsBeh := .ok,
             setPropBeh := .ok, clearPropBeh := .ok, getFieldsBeh := .ok, addBeh := .ok }]
        1 1 ∧
    (1 : Nat) = 1 :=
  ⟨by decide,
   found_count_eq_modified_count
     [{ props := [("PART NUMBER", "ABC123")], fields := [], getPropsBeh := .ok,
        setPropBeh := .ok, clearPropBeh := .ok, getFieldsBeh := .ok, addBeh := .ok }]
     [{ props := [("MPN", "ABC123")], fields := [], getPropsBeh := .ok,
        setPropBeh := .ok, clearPropBeh := .ok, getFieldsBeh := .ok, addBeh := .ok }]
     "PART NUMBER" "MPN" false 1 1 (by decide)⟩

/-- Claim C9: every footprint contributes 0 or 1 to each counter, so both
returned counters are at most the number of footprints on the board. -/
theorem counters_bounded_by_board_size :
    (∀ (old_l new_field : String) (c : Bool) (fp fp' : Footprint) (dm df : Nat),
        processFootprint old_l new_field c fp = .ok fp' dm df → dm ≤ 1 ∧ df ≤ 1) ∧
    (∀ (board board' : List Footprint) (old_field new_field : String) (c : Bool)
        (m f : Nat),
        renameFieldsOnBoard board old_field new_field c = .ok board' m f →
        m ≤ board.length ∧ f ≤ board.length) := by
  constructor
  · intro old_l new_field c fp fp' dm df h
    rcases procOk_counters old_l new_field c fp fp' dm df h with ⟨e1, e2⟩ | ⟨e1, e2⟩ <;>
      · subst e1
        subst e2
        omega
  · intro board board' old_field new_field c m f h
    obtain ⟨-, h1, h2⟩ :=
      runBoard_ok_facts (pyNorm old_field) new_field c board board' m f h
    exact ⟨h1, h2⟩

/-- Witness for C9 at a one-footprint board. -/
theorem counters_bounded_by_board_size_witness :
    (processFootprint "part number" "MPN" false
        { props := [("Part Number", "ABC123")], fields := [], getPropsBeh := .ok,
          setPropBeh := .ok, clearPropBeh := .ok, getFieldsBeh := .ok, addBeh := .ok } =
      .ok { props := [("MPN", "ABC123")], fields := [], getPropsBeh := .ok,
            setPropBeh := .ok, clearPropBeh := .ok, getFieldsBeh := .ok, addBeh := .ok }
        1 1 ∧ ((1 : Nat) ≤ 1 ∧ (1 : Nat) ≤ 1)) ∧
    ((1 : Nat) ≤ 1 ∧ (1 : Nat) ≤ 1) :=
  ⟨⟨by decide,
    counters_bounded_by_board_size.1 "part number" "MPN" false
      { props := [("Part Number", "ABC123")], fields := [], getPropsBeh := .ok,
        setPropBeh := .ok, clearPropBeh := .ok, getFieldsBeh := .ok, addBeh := .ok }
      { props := [("MPN", "ABC123")], fields := [], getPropsBeh := .ok,
        setPropBeh := .ok, clearPropBeh := .ok, getFieldsBeh := .ok, addBeh := .ok }
      1 1 (by decide)⟩,
   counters_bounded_by_board_size.2
     [{ props := [("PART NUMBER", "ABC123")], fields := [], getPropsBeh := .ok,
        setPropBeh := .ok, clearPropBeh := .ok, getFieldsBeh := .ok, addBeh := .ok }]
     [{ props := [("MPN", "ABC123")], fields := [], getPropsBeh := .ok,
        setPropBeh := .ok, clearPropBeh := .ok, getFieldsBeh := .ok, addBeh := .ok }]
     "PART NUMBER" "MPN" false 1 1 (by decide)⟩

/-- Claim C4: matching is trim-then-case-fold equality: invoking the
operation with `old_field` equal to `"PART NUMBER"` or `" part number "`
behaves identically to invoking it with `"Part Number"`, and all three find
the stored key `"Part Number"` as the first match. -/
theorem matching_is_trim_casefold :
    (∀ (board : List Footprint) (new_field : String) (c : Bool),
        renameFieldsOnBoard board "PART NUMBER" new_field c =
          renameFieldsOnBoard board "Part Number" new_field c ∧
        renameFieldsOnBoard board " part number " new_field c =
          renameFieldsOnBoard board "Part Number" new_field c) ∧
    (∀ (v : String) (rest : List (String × String)),
        findMatchKey (("Part Number", v) :: rest) (pyNorm "Part Number") =
          some "Part Number" ∧
        findMatchKey (("Part Number", v) :: rest) (pyNorm "PART NUMBER") =
          some "Part Number" ∧
        findMatchKey (("Part Number", v) :: rest) (pyNorm " part number ") =
          some "Part Number") := by
  have h1 : pyNorm "PART NUMBER" = pyNorm "Part Number" := by decide
  have h2 : pyNorm " part number " = pyNorm "Part Number" := by decide
  constructor
  · intro board new_field c
    constructor
    · unfold renameFieldsOnBoard
      rw [h1]
    · unfold renameFieldsOnBoard
      rw [h2]
  · intro v rest
    refine ⟨?_, ?_, ?_⟩
    · exact findMatchKey_cons_match rest "Part Number" v _ rfl
    · exact findMatchKey_cons_match rest "Part Number" v _ h1.symm
    · exact findMatchKey_cons_match rest "Part Number" v _ h2.symm

/-- Claim C5: if either dialog name is empty after stripping, or the two
names are equal after strip + lower-casing, `Run` shows a warning and the
rename operation is never invoked: the board is returned unchanged and no
counters are produced. -/
theorem validation_blocks_operation (board : List Footprint) (rawOld rawNew : String)
    (c : Bool)
    (h : pyStripStr rawOld = "" ∨ pyStripStr rawNew = "" ∨
      pyNorm (pyStripStr rawOld) = pyNorm (pyStripStr rawNew)) :
    pluginRun board rawOld rawNew c = .warned board := by
  unfold pluginRun
  rcases h with h | h | h
  · rw [if_pos (Or.inl h)]
  · rw [if_pos (Or.inr h)]
  · by_cases h0 : pyStripStr rawOld = "" ∨ pyStripStr rawNew = ""
    · rw [if_pos h0]
    · rw [if_neg h0, if_pos h]

/-- Witness for C5 at the spec's example `old="MPN"`, `new="mpn"`. -/
theorem validation_blocks_operation_witness :
    (pyNorm (pyStripStr "MPN") = pyNorm (pyStripStr "mpn")) ∧
    pluginRun
        [{ props := [("MPN", "ABC123")], fields := [], getPropsBeh := .ok,
           setPropBeh := .ok, clearPropBeh := .ok, getFieldsBeh := .ok, addBeh := .ok }]
        "MPN" "mpn" false =
      .warned
        [{ props := [("MPN", "ABC123")], fields := [], getPropsBeh := .ok,
           setPropBeh := .ok, clearPropBeh := .ok, getFieldsBeh := .ok, addBeh := .ok }] :=
  ⟨by decide,
   validation_blocks_operation
     [{ props := [("MPN", "ABC123")], fields := [], getPropsBeh := .ok,
        setPropBeh := .ok, clearPropBeh := .ok, getFieldsBeh := .ok, addBeh := .ok }]
     "MPN" "mpn" false (Or.inr (Or.inr (by decide)))⟩

/-- Claim C3: a footprint in which neither the property mapping nor the
field list contains a trim + case-fold match of `old_l` is left entirely
unchanged and contributes 0 to both counters. -/
theorem no_match_leaves_component_unchanged (old_l new_field : String) (c : Bool)
    (fp fp' : Footprint) (dm df : Nat)
    (hP : ∀ kv ∈ fp.props, pyNorm kv.1 ≠ old_l)
    (hF : ∀ fld ∈ fp.fields, pyNorm (effName fld) ≠ old_l)
    (hRun : processFootprint old_l new_field c fp = .ok fp' dm df) :
    fp' = fp ∧ dm = 0 ∧ df = 0 := by
  have hcaseB : processCaseB old_l new_field c fp = .ok fp' dm df →
      fp' = fp ∧ dm = 0 ∧ df = 0 := by
    intro hB
    cases hfb : fp.getFieldsBeh with
    | otherErr =>
        rw [processCaseB_fieldsOther old_l new_field c fp hfb] at hB
        simp at hB
    | attrErr =>
        rw [processCaseB_fieldsAttr old_l new_field c fp hfb] at hB
        injection hB with e1 e2 e3
        exact ⟨e1.symm, e2.symm, e3.symm⟩
    | ok =>
        rcases scanFields_no_match old_l new_field c fp fp.fields hF with hs | hs
        · rw [processCaseB_scan_nomatch old_l new_field c fp hfb hs] at hB
          injection hB with e1 e2 e3
          exact ⟨e1.symm, e2.symm, e3.symm⟩
        · rw [processCaseB_scan_exn old_l new_field c fp hfb hs] at hB
          simp at hB
  cases hgp : fp.getPropsBeh with
  | otherErr =>
      rw [processFootprint_propsOther old_l new_field c fp hgp] at hRun
      simp at hRun
  | attrErr =>
      rw [processFootprint_propsAttr old_l new_field c fp hgp] at hRun
      exact hcaseB hRun
  | ok =>
      rw [processFootprint_noMatch old_l new_field c fp hgp
        (findMatchKey_none fp.props old_l hP)] at hRun
      exact hcaseB hRun

/-- Witness for C3 at a footprint holding only an unrelated key and field. -/
theorem no_match_leaves_component_unchanged_witness :
    (processFootprint "part number" "MPN" false
        { props := [("Value", "10k")],
          fields := [{ name := "Reference", text := "R1", getNameBeh := .ok,
                       getTextBeh := .ok, setNameBeh := .ok, dupBeh := .ok }],
          getPropsBeh := .ok, setPropBeh := .ok, clearPropBeh := .ok,
          getFieldsBeh := .ok, addBeh := .ok } =
      .ok { props := [("Value", "10k")],
            fields := [{ name := "Reference", text := "R1", getNameBeh := .ok,
                         getTextBeh := .ok, setNameBeh := .ok, dupBeh := .ok }],
            getPropsBeh := .ok, setPropBeh := .ok, clearPropBeh := .ok,
            getFieldsBeh := .ok, addBeh := .ok } 0 0) ∧
    ({ props := [("Value", "10k")],
       fields := [{ name := "Reference", text := "R1", getNameBeh := .ok,
                    getTextBeh := .ok, setNameBeh := .ok, dupBeh := .ok }],
       getPropsBeh := .ok, setPropBeh := .ok, clearPropBeh := .ok,
       getFieldsBeh := .ok, addBeh := .ok } : Footprint) =
      { props := [("Value", "10k")],
        fields := [{ name := "Reference", text := "R1", getNameBeh := .ok,
                     getTextBeh := .ok, setNameBeh := .ok, dupBeh := .ok }],
        getPropsBeh := .ok, setPropBeh := .ok, clearPropBeh := .ok,
        getFieldsBeh := .ok, addBeh := .ok } ∧ (0 : Nat) = 0 ∧ (0 : Nat) = 0 :=
  ⟨by decide,
   no_match_leaves_component_unchanged "part number" "MPN" false
     { props := [("Value", "10k")],
       fields := [{ name := "Reference", text := "R1", getNameBeh := .ok,
                    getTextBeh := .ok, setNameBeh := .ok, dupBeh := .ok }],
       getPropsBeh := .ok, setPropBeh := .ok, clearPropBeh := .ok,
       getFieldsBeh := .ok, addBeh := .ok }
     { props := [("Value", "10k")],
       fields := [{ name := "Reference", text := "R1", getNameBeh := .ok,
                    getTextBeh := .ok, setNameBeh := .ok, dupBeh := .ok }],
       getPropsBeh := .ok, setPropBeh := .ok, clearPropBeh := .ok,
       getFieldsBeh := .ok, addBeh := .ok } 0 0
     (by decide) (by decide) (by decide)⟩

/-- Claim C6, counterexample: on a two-footprint board where the first
footprint's `SetProperty` raises a non-`AttributeError` exception after a
property match, the pass aborts: the second footprint is never processed and
no counters are returned, contradicting the claim that every host-API call
failure within a component's processing is caught. -/
theorem fault_isolation_counterexample :
    renameFieldsOnBoard
        [{ props := [("X", "v")], fields := [], getPropsBeh := .ok,
           setPropBeh := .otherErr, clearPropBeh := .ok, getFieldsBeh := .ok,
           addBeh := .ok },
         { props := [("X", "w")], fields := [], getPropsBeh := .ok,
           setPropBeh := .ok, clearPropBeh := .ok, getFieldsBeh := .ok,
           addBeh := .ok }]
        "X" "Y" false =
      .exn
        [{ props := [("X", "v")], fields := [], getPropsBeh := .ok,
           setPropBeh := .otherErr, clearPropBeh := .ok, getFieldsBeh := .ok,
           addBeh := .ok },
         { props := [("X", "w")], fields := [], getPropsBeh := .ok,
           setPropBeh := .ok, clearPropBeh := .ok, getFieldsBeh := .ok,
           addBeh := .ok }] := by
  decide

/-- Claim C6 (amended): capability absence (`AttributeError`) on any host
call, and arbitrary failures of `ClearProperty`, `SetName`, `Duplicate`,
`Add`, and of `SetProperty` within the field-list path, never abort the
pass; the pass completes and returns its two counters whenever
`GetProperties`, `GetFields`, `GetName`, `GetText` do not raise
non-`AttributeError` exceptions and `SetProperty` does not raise one on the
footprints where a property match actually reaches it.  In particular a
footprint whose `SetProperty` always raises is harmless as long as it
matches only via its field list. -/
theorem fault_isolation_amended (board : List Footprint)
    (old_field new_field : String) (c : Bool)
    (h : ∀ fp ∈ board, fp.getPropsBeh ≠ .otherErr ∧
        (fp.getPropsBeh = .ok → findMatchKey fp.props (pyNorm old_field) ≠ none →
          fp.setPropBeh ≠ .otherErr) ∧
        fp.getFieldsBeh ≠ .otherErr ∧
        ∀ fld ∈ fp.fields, fld.getNameBeh ≠ .otherErr ∧ fld.getTextBeh ≠ .otherErr) :
    ∃ board' m f, renameFieldsOnBoard board old_field new_field c = .ok board' m f :=
  runBoard_no_abort (pyNorm old_field) new_field c board h

/-- Witness for the amended C6: a board whose first footprint's
`SetProperty` always raises a non-`AttributeError` yet matches only via its
field list (in copy mode the call is attempted there and its failure
caught), and whose second footprint misses several capabilities
(`AttributeError`) with all field-path mutation calls failing, still
completes and returns counters. -/
theorem fault_isolation_amended_witness :
    (∀ fp ∈
        [({ props := [("Other", "z")],
            fields := [{ name := "Part Number", text := "XYZ", getNameBeh := .ok,
                         getTextBeh := .ok, setNameBeh := .otherErr,
                         dupBeh := .otherErr }],
            getPropsBeh := .ok, setPropBeh := .otherErr, clearPropBeh := .otherErr,
            getFieldsBeh := .ok, addBeh := .otherErr } : Footprint),
         { props := [("Part Number", "ABC")],
           fields := [{ name := "Part Number", text := "XYZ", getNameBeh := .ok,
                        getTextBeh := .ok, setNameBeh := .otherErr,
                        dupBeh := .otherErr }],
           getPropsBeh := .attrErr, setPropBeh := .attrErr, clearPropBeh := .otherErr,
           getFieldsBeh := .ok, addBeh := .otherErr }],
      fp.getPropsBeh ≠ Beh.otherErr ∧
        (fp.getPropsBeh = Beh.ok → findMatchKey fp.props (pyNorm "part number") ≠ none →
          fp.setPropBeh ≠ Beh.otherErr) ∧
        fp.getFieldsBeh ≠ Beh.otherErr ∧
        ∀ fld ∈ fp.fields, fld.getNameBeh ≠ Beh.otherErr ∧
          fld.getTextBeh ≠ Beh.otherErr) ∧
    (∃ board' m f,
      renameFieldsOnBoard
          [{ props := [("Other", "z")],
             fields := [{ name := "Part Number", text := "XYZ", getNameBeh := .ok,
                          getTextBeh := .ok, setNameBeh := .otherErr,
                          dupBeh := .otherErr }],
             getPropsBeh := .ok, setPropBeh := .otherErr, clearPropBeh := .otherErr,
             getFieldsBeh := .ok, addBeh := .otherErr },
           { props := [("Part Number", "ABC")],
             fields := [{ name := "Part Number", text := "XYZ", getNameBeh := .ok,
                          getTextBeh := .ok, setNameBeh := .otherErr,
                          dupBeh := .otherErr }],
             getPropsBeh := .attrErr, setPropBeh := .attrErr, clearPropBeh := .otherErr,
             getFieldsBeh := .ok, addBeh := .otherErr }]
          "part number" "MPN" true = .ok board' m f) :=
  ⟨by decide,
   fault_isolation_amended
     [{ props := [("Other", "z")],
        fields := [{ name := "Part Number", text := "XYZ", getNameBeh := .ok,
                     getTextBeh := .ok, setNameBeh := .otherErr,
                     dupBeh := .otherErr }],
        getPropsBeh := .ok, setPropBeh := .otherErr, clearPropBeh := .otherErr,
        getFieldsBeh := .ok, addBeh := .otherErr },
      { props := [("Part Number", "ABC")],
        fields := [{ name := "Part Number", text := "XYZ", getNameBeh := .ok,
                     getTextBeh := .ok, setNameBeh := .otherErr,
                     dupBeh := .otherErr }],
        getPropsBeh := .attrErr, setPropBeh := .attrErr, clearPropBeh := .otherErr,
        getFieldsBeh := .ok, addBeh := .otherErr }]
     "part number" "MPN" true (by decide)⟩

/-- Claim C7: in copy mode, when a footprint matches only via its field
list and both writing a new property and duplicating the field are
unsupported, the footprint is left completely unchanged yet still
increments both counters by one. -/
theorem copy_with_unsupported_fallbacks_still_counts (old_l new_field : String)
    (fp : Footprint) (pre : List Field) (fld : Field) (post : List Field)
    (hgp : fp.getPropsBeh ≠ .otherErr)
    (hnoprop : fp.getPropsBeh = .ok → findMatchKey fp.props old_l = none)
    (hfb : fp.getFieldsBeh = .ok)
    (hfl : fp.fields = pre ++ fld :: post)
    (hpre : ∀ g ∈ pre, g.getNameBeh ≠ .otherErr ∧ pyNorm (effName g) ≠ old_l)
    (hn1 : fld.getNameBeh ≠ .otherErr)
    (hn2 : pyNorm (effName fld) = old_l)
    (ht : fld.getTextBeh ≠ .otherErr)
    (hsp : fp.setPropBeh ≠ .ok)
    (hdup : ¬(fld.dupBeh = .ok ∧ fld.setNameBeh = .ok ∧ fp.addBeh = .ok)) :
    processFootprint old_l new_field true fp = .ok fp 1 1 := by
  have hscan : scanFields old_l new_field true fp fp.fields =
      .matched (pre ++ fld :: post) fp.props := by
    rw [hfl, scanFields_append_skip old_l new_field true fp pre (fld :: post) hpre,
      scanFields_cons_match old_l new_field true fp fld post hn1 hn2 ht]
    simp [hsp, hdup]
  have hres : processCaseB old_l new_field true fp = .ok fp 1 1 := by
    rw [processCaseB_scan_matched old_l new_field true fp (pre ++ fld :: post)
      fp.props hfb hscan, ← hfl]
  cases hgpv : fp.getPropsBeh with
  | otherErr => exact absurd hgpv hgp
  | attrErr => rw [processFootprint_propsAttr old_l new_field true fp hgpv]; exact hres
  | ok =>
      rw [processFootprint_noMatch old_l new_field true fp hgpv (hnoprop hgpv)]
      exact hres

/-- Witness for C7: property store unsupported, `SetProperty` and all
duplication calls failing, the matching footprint is returned unchanged
with both counter increments equal to one. -/
theorem copy_with_unsupported_fallbacks_still_counts_witness :
    processFootprint "part number" "MPN" true
        { props := [], fields := [{ name := "Part Number", text := "XYZ",
                                    getNameBeh := .ok, getTextBeh := .ok,
                                    setNameBeh := .ok, dupBeh := .otherErr }],
          getPropsBeh := .attrErr, setPropBeh := .attrErr, clearPropBeh := .ok,
          getFieldsBeh := .ok, addBeh := .ok } =
      .ok { props := [], fields := [{ name := "Part Number", text := "XYZ",
                                      getNameBeh := .ok, getTextBeh := .ok,
                                      setNameBeh := .ok, dupBeh := .otherErr }],
            getPropsBeh := .attrErr, setPropBeh := .attrErr, clearPropBeh := .ok,
            getFieldsBeh := .ok, addBeh := .ok } 1 1 :=
  copy_with_unsupported_fallbacks_still_counts "part number" "MPN"
    { props := [], fields := [{ name := "Part Number", text := "XYZ",
                                getNameBeh := .ok, getTextBeh := .ok,
                                setNameBeh := .ok, dupBeh := .otherErr }],
      getPropsBeh := .attrErr, setPropBeh := .attrErr, clearPropBeh := .ok,
      getFieldsBeh := .ok, addBeh := .ok }
    [] { name := "Part Number", text := "XYZ", getNameBeh := .ok, getTextBeh := .ok,
         setNameBeh := .ok, dupBeh := .otherErr } []
    (by decide) (by decide) (by decide) (by decide) (by decide) (by decide)
    (by decide) (by decide) (by decide) (by decide)

/-- Claim C2: for a footprint whose property mapping contains a key `k`
matching `old_l` (first match, holding value `v`): after a completed
non-copy step the mapping holds `v` under `new_field` and no longer holds
`k`; after a completed copy step both `k` and `new_field` hold `v`; the
field list is returned unchanged and the outcome does not depend on the
field list or on the `GetFields` capability at all (property match takes
precedence). -/
theorem property_match_postcondition (old_l new_field : String) (c : Bool)
    (fp fp' : Footprint) (k v : String) (dm df : Nat)
    (hgp : fp.getPropsBeh = .ok)
    (hk : findMatchKey fp.props old_l = some k)
    (hv : getKey fp.props k = some v)
    (hnew : pyNorm new_field ≠ old_l)
    (hnd : (fp.props.map Prod.fst).Nodup)
    (hRun : processFootprint old_l new_field c fp = .ok fp' dm df) :
    dm = 1 ∧ df = 1 ∧
    (c = false → getKey fp'.props new_field = some v ∧ getKey fp'.props k = none) ∧
    (c = true → getKey fp'.props new_field = some v ∧ getKey fp'.props k = some v) ∧
    fp'.fields = fp.fields ∧
    (∀ (gs : List Field) (gb : Beh),
      processFootprint old_l new_field c { fp with fields := gs, getFieldsBeh := gb } =
        .ok { fp' with fields := gs, getFieldsBeh := gb } dm df) := by
  have hknorm : pyNorm k = old_l := findMatchKey_some_norm fp.props old_l k hk
  have hne : new_field ≠ k := by
    intro e
    exact hnew (by rw [e]; exact hknorm)
  have hsp : fp.setPropBeh ≠ .otherErr := by
    intro hx
    rw [processFootprint_match_exn old_l new_field c fp k hgp hk hx] at hRun
    simp at hRun
  rw [processFootprint_match_ok old_l new_field c fp k hgp hk hsp] at hRun
  simp only [hv, Option.getD_some] at hRun
  injection hRun with e1 e2 e3
  subst e2
  subst e3
  subst e1
  refine ⟨rfl, rfl, ?_, ?_, rfl, ?_⟩
  · intro hc
    subst hc
    simp only [if_neg Bool.false_ne_true]
    constructor
    · rw [getKey_delKey_ne (setKey fp.props new_field v) k new_field hne,
        getKey_setKey_self fp.props new_field v]
    · exact getKey_delKey_self (setKey fp.props new_field v) k
        (nodup_keys_setKey fp.props new_field v hnd)
  · intro hc
    subst hc
    simp only [if_pos rfl]
    constructor
    · exact getKey_setKey_self fp.props new_field v
    · show getKey (setKey fp.props new_field v) k = some v
      rw [getKey_setKey_ne fp.props new_field v k (Ne.symm hne)]
      exact hv
  · intro gs gb
    rw [processFootprint_match_ok old_l new_field c
      { fp with fields := gs, getFieldsBeh := gb } k hgp hk hsp]
    simp only [hv, Option.getD_some]

/-- Witness for C2, non-copy run on a footprint storing
`"Part Number" = "ABC123"`. -/
theorem property_match_postcondition_witness :
    (processFootprint "part number" "MPN" false
        { props := [("Part Number", "ABC123")], fields := [], getPropsBeh := .ok,
          setPropBeh := .ok, clearPropBeh := .ok, getFieldsBeh := .ok, addBeh := .ok } =
      .ok { props := [("MPN", "ABC123")], fields := [], getPropsBeh := .ok,
            setPropBeh := .ok, clearPropBeh := .ok, getFieldsBeh := .ok, addBeh := .ok }
        1 1) ∧
    (getKey [("MPN", "ABC123")] "MPN" = some "ABC123" ∧
      getKey [("MPN", "ABC123")] "Part Number" = none) :=
  ⟨by decide,
   (property_match_postcondition "part number" "MPN" false
      { props := [("Part Number", "ABC123")], fields := [], getPropsBeh := .ok,
        setPropBeh := .ok, clearPropBeh := .ok, getFieldsBeh := .ok, addBeh := .ok }
      { props := [("MPN", "ABC123")], fields := [], getPropsBeh := .ok,
        setPropBeh := .ok, clearPropBeh := .ok, getFieldsBeh := .ok, addBeh := .ok }
      "Part Number" "ABC123" 1 1
      (by decide) (by decide) (by decide) (by decide) (by decide)
      (by decide)).2.2.1 rfl⟩

theorem first_match_wins_props (old_l new_field : String) (c : Bool)
    (fp fp' : Footprint) (pre : List (String × String)) (k v : String)
    (post : List (String × String)) (dm df : Nat)
    (hgp : fp.getPropsBeh = .ok)
    (hprops : fp.props = pre ++ (k, v) :: post)
    (hpre : ∀ kv ∈ pre, pyNorm kv.1 ≠ old_l)
    (hkm : pyNorm k = old_l)
    (hnew : pyNorm new_field ≠ old_l)
    (hnd : (fp.props.map Prod.fst).Nodup)
    (hRun : processFootprint old_l new_field c fp = .ok fp' dm df) :
    findMatchKey fp.props old_l = some k ∧ dm = 1 ∧ df = 1 ∧
      ∀ kv ∈ post, pyNorm kv.1 = old_l → kv ∈ fp'.props := by
  have hfind : findMatchKey fp.props old_l = some k := by
    rw [hprops, findMatchKey_append_no pre _ old_l hpre,
      findMatchKey_cons_match post k v old_l hkm]
  have hne : new_field ≠ k := fun e => hnew (by rw [e]; exact hkm)
  have hknotpost : ∀ kv ∈ post, kv.1 ≠ k := by
    intro kv hmem he
    rw [hprops] at hnd
    simp only [List.map_append, List.map_cons] at hnd
    have hpostnd := List.Nodup.of_append_right hnd
    have hnotin := (List.nodup_cons.mp hpostnd).1
    have : kv.1 ∈ post.map Prod.fst := List.mem_map_of_mem Prod.fst hmem
    rw [he] at this
    exact hnotin this
  have hvk : getKey fp.props k = some v := by
    rw [hprops]
    exact getKey_append_cons pre post k v
      (fun kv hm e => hpre kv hm (by rw [e]; exact hkm))
  have hsp : fp.setPropBeh ≠ .otherErr := by
    intro hx
    rw [processFootprint_match_exn old_l new_field c fp k hgp hfind hx] at hRun
    simp at hRun
  rw [processFootprint_match_ok old_l new_field c fp k hgp hfind hsp] at hRun
  simp only [hvk, Option.getD_some] at hRun
  injection hRun with e1 e2 e3
  subst e2
  subst e3
  subst e1
  refine ⟨hfind, rfl, rfl, ?_⟩
  intro kv hmem hnorm
  have hmem0 : kv ∈ fp.props := by
    rw [hprops]
    exact List.mem_append_right pre (List.mem_cons_of_mem _ hmem)
  have hne_new : kv.1 ≠ new_field := fun e => hnew (by rw [← e]; exact hnorm)
  have hmem1 : kv ∈ setKey fp.props new_field v :=
    mem_setKey_of_mem fp.props new_field v kv hne_new hmem0
  cases c with
  | false =>
      show kv ∈ delKey (setKey fp.props new_field v) k
      exact mem_delKey_of_mem _ k kv (hknotpost kv hmem) hmem1
  | true =>
      show kv ∈ setKey fp.props new_field v
      exact hmem1

theorem first_match_wins_fields (old_l new_field : String) (c : Bool)
    (fp fp' : Footprint) (pre : List Field) (fld : Field) (post : List Field)
    (dm df : Nat)
    (hgp : fp.getPropsBeh ≠ .otherErr)
    (hnoprop : fp.getPropsBeh = .ok → findMatchKey fp.props old_l = none)
    (hfb : fp.getFieldsBeh = .ok)
    (hfl : fp.fields = pre ++ fld :: post)
    (hpre : ∀ g ∈ pre, g.getNameBeh ≠ .otherErr ∧ pyNorm (effName g) ≠ old_l)
    (hm : pyNorm (effName fld) = old_l)
    (hRun : processFootprint old_l new_field c fp = .ok fp' dm df) :
    dm = 1 ∧ df = 1 ∧ ∀ g ∈ post, g ∈ fp'.fields := by
  have hPB : processFootprint old_l new_field c fp =
      processCaseB old_l new_field c fp := by
    cases hgpv : fp.getPropsBeh with
    | otherErr => exact absurd hgpv hgp
    | attrErr => exact processFootprint_propsAttr old_l new_field c fp hgpv
    | ok => exact processFootprint_noMatch old_l new_field c fp hgpv (hnoprop hgpv)
  rw [hPB] at hRun
  by_cases hn1 : fld.getNameBeh = .otherErr
  · exfalso
    have hscan : scanFields old_l new_field c fp fp.fields = .exn := by
      rw [hfl, scanFields_append_skip old_l new_field c fp pre (fld :: post) hpre,
        scanFields_cons_exn old_l new_field c fp fld post hn1]
    rw [processCaseB_scan_exn old_l new_field c fp hfb hscan] at hRun
    simp at hRun
  by_cases ht : fld.getTextBeh = .otherErr
  · exfalso
    have hscan : scanFields old_l new_field c fp fp.fields = .exn := by
      rw [hfl, scanFields_append_skip old_l new_field c fp pre (fld :: post) hpre,
        scanFields_cons_text_exn old_l new_field c fp fld post hn1 hm ht]
    rw [processCaseB_scan_exn old_l new_field c fp hfb hscan] at hRun
    simp at hRun
  obtain ⟨X, p', hcons, hpost⟩ :=
    scanFields_cons_match_post old_l new_field c fp fld post hn1 hm ht
  have hscan : scanFields old_l new_field c fp fp.fields = .matched (pre ++ X) p' := by
    rw [hfl, scanFields_append_skip old_l new_field c fp pre (fld :: post) hpre, hcons]
  rw [processCaseB_scan_matched old_l new_field c fp (pre ++ X) p' hfb hscan] at hRun
  injection hRun with e1 e2 e3
  subst e2
  subst e3
  refine ⟨rfl, rfl, ?_⟩
  intro g hg
  rw [← e1]
  exact List.mem_append_right pre (hpost g hg)

/-- Claim C8: within one footprint, if several property keys (or several
field names) trim-and-case-fold to `old_l`, only the first in iteration
order is found and mutated: the scan returns the first matching key, the
counters increase by exactly one, and every later duplicate entry is still
present unchanged in the resulting footprint. -/
theorem first_match_wins :
    (∀ (old_l new_field : String) (c : Bool) (fp fp' : Footprint)
        (pre : List (String × String)) (k v : String)
        (post : List (String × String)) (dm df : Nat),
        fp.getPropsBeh = .ok →
        fp.props = pre ++ (k, v) :: post →
        (∀ kv ∈ pre, pyNorm kv.1 ≠ old_l) →
        pyNorm k = old_l →
        pyNorm new_field ≠ old_l →
        (fp.props.map Prod.fst).Nodup →
        processFootprint old_l new_field c fp = .ok fp' dm df →
        findMatchKey fp.props old_l = some k ∧ dm = 1 ∧ df = 1 ∧
          ∀ kv ∈ post, pyNorm kv.1 = old_l → kv ∈ fp'.props) ∧
    (∀ (old_l new_field : String) (c : Bool) (fp fp' : Footprint)
        (pre : List Field) (fld : Field) (post : List Field) (dm df : Nat),
        fp.getPropsBeh ≠ .otherErr →
        (fp.getPropsBeh = .ok → findMatchKey fp.props old_l = none) →
        fp.getFieldsBeh = .ok →
        fp.fields = pre ++ fld :: post →
        (∀ g ∈ pre, g.getNameBeh ≠ .otherErr ∧ pyNorm (effName g) ≠ old_l) →
        pyNorm (effName fld) = old_l →
        processFootprint old_l new_field c fp = .ok fp' dm df →
        dm = 1 ∧ df = 1 ∧ ∀ g ∈ post, g ∈ fp'.fields) :=
  ⟨fun old_l new_field c fp fp' pre k v post dm df h1 h2 h3 h4 h5 h6 h7 =>
     first_match_wins_props old_l new_field c fp fp' pre k v post dm df
       h1 h2 h3 h4 h5 h6 h7,
   fun old_l new_field c fp fp' pre fld post dm df h1 h2 h3 h4 h5 h6 h7 =>
     first_match_wins_fields old_l new_field c fp fp' pre fld post dm df
       h1 h2 h3 h4 h5 h6 h7⟩

/-- Witness for C8: a footprint with two property keys folding to
`"part number"` (only the first is renamed, the second survives), and a
footprint with two such field names (only the first is renamed in place). -/
theorem first_match_wins_witness :
    (findMatchKey [("Value", "10k"), ("Part Number", "A"), ("PART NUMBER", "B")]
        "part number" = some "Part Number" ∧ (1 : Nat) = 1 ∧ (1 : Nat) = 1 ∧
      ∀ kv ∈ [(("PART NUMBER" : String), ("B" : String))],
        pyNorm kv.1 = "part number" →
        kv ∈ [("Value", "10k"), ("PART NUMBER", "B"), ("MPN", "A")]) ∧
    ((1 : Nat) = 1 ∧ (1 : Nat) = 1 ∧
      ∀ g ∈ [({ name := "PART NUMBER", text := "Y", getNameBeh := .ok,
                getTextBeh := .ok, setNameBeh := .ok, dupBeh := .ok } : Field)],
        g ∈ [({ name := "MPN", text := "X", getNameBeh := .ok, getTextBeh := .ok,
                setNameBeh := .ok, dupBeh := .ok } : Field),
             { name := "PART NUMBER", text := "Y", getNameBeh := .ok,
               getTextBeh := .ok, setNameBeh := .ok, dupBeh := .ok }]) :=
  ⟨first_match_wins.1 "part number" "MPN" false
     { props := [("Value", "10k"), ("Part Number", "A"), ("PART NUMBER", "B")],
       fields := [], getPropsBeh := .ok, setPropBeh := .ok, clearPropBeh := .ok,
       getFieldsBeh := .ok, addBeh := .ok }
     { props := [("Value", "10k"), ("PART NUMBER", "B"), ("MPN", "A")],
       fields := [], getPropsBeh := .ok, setPropBeh := .ok, clearPropBeh := .ok,
       getFieldsBeh := .ok, addBeh := .ok }
     [("Value", "10k")] "Part Number" "A" [("PART NUMBER", "B")] 1 1
     (by decide) (by decide) (by decide) (by decide) (by decide) (by decide)
     (by decide),
   first_match_wins.2 "part number" "MPN" false
     { props := [], fields := [{ name := "Part Number", text := "X", getNameBeh := .ok,
                                 getTextBeh := .ok, setNameBeh := .ok, dupBeh := .ok },
                               { name := "PART NUMBER", text := "Y", getNameBeh := .ok,
                                 getTextBeh := .ok, setNameBeh := .ok, dupBeh := .ok }],
       getPropsBeh := .attrErr, setPropBeh := .ok, clearPropBeh := .ok,
       getFieldsBeh := .ok, addBeh := .ok }
     { props := [], fields := [{ name := "MPN", text := "X", getNameBeh := .ok,
                                 getTextBeh := .ok, setNameBeh := .ok, dupBeh := .ok },
                               { name := "PART NUMBER", text := "Y", getNameBeh := .ok,
                                 getTextBeh := .ok, setNameBeh := .ok, dupBeh := .ok }],
       getPropsBeh := .attrErr, setPropBeh := .ok, clearPropBeh := .ok,
       getFieldsBeh := .ok, addBeh := .ok }
     [] { name := "Part Number", text := "X", getNameBeh := .ok, getTextBeh := .ok,
          setNameBeh := .ok, dupBeh := .ok }
     [{ name := "PART NUMBER", text := "Y", getNameBeh := .ok, getTextBeh := .ok,
        setNameBeh := .ok, dupBeh := .ok }] 1 1
     (by decide) (by decide) (by decide) (by decide) (by decide) (by decide)
     (by decide)⟩

theorem processCaseB_names_shape (old_l new_field : String) (c : Bool)
    (fp fp' : Footprint) (dm df : Nat)
    (hB : processCaseB old_l new_field c fp = .ok fp' dm df) :
    (∀ kv ∈ fp'.props, kv ∈ fp.props ∨ kv.1 = new_field) ∧
    (∀ fld' ∈ fp'.fields, (∃ fld ∈ fp.fields, fld'.name = fld.name) ∨
      fld'.name = new_field) := by
  cases hfb : fp.getFieldsBeh with
  | otherErr =>
      rw [processCaseB_fieldsOther old_l new_field c fp hfb] at hB
      simp at hB
  | attrErr =>
      rw [processCaseB_fieldsAttr old_l new_field c fp hfb] at hB
      injection hB with e1 e2 e3
      subst e1
      exact ⟨fun kv hkv => Or.inl hkv, fun fld' h => Or.inl ⟨fld', h, rfl⟩⟩
  | ok =>
      cases hs : scanFields old_l new_field c fp fp.fields
      next =>
        rw [processCaseB_scan_exn old_l new_field c fp hfb hs] at hB
        simp at hB
      next =>
        rw [processCaseB_scan_nomatch old_l new_field c fp hfb hs] at hB
        injection hB with e1 e2 e3
        subst e1
        exact ⟨fun kv hkv => Or.inl hkv, fun fld' h => Or.inl ⟨fld', h, rfl⟩⟩
      next fl pr =>
        rw [processCaseB_scan_matched old_l new_field c fp fl pr hfb hs] at hB
        injection hB with e1 e2 e3
        obtain ⟨hp, hf⟩ := scanFields_matched_shape old_l new_field c fp fp.fields fl pr hs
        rw [← e1]
        exact ⟨hp, hf⟩

/-- Claim C10: the new name is written verbatim: every key present in the
resulting property mapping is either an original entry or carries exactly
the string `new_field`, and every field name in the resulting field list is
either an original name or exactly `new_field` — no trimming or case change
is applied to `new_field` inside the operation. -/
theorem new_name_written_verbatim (old_l new_field : String) (c : Bool)
    (fp fp' : Footprint) (dm df : Nat)
    (hRun : processFootprint old_l new_field c fp = .ok fp' dm df) :
    (∀ kv ∈ fp'.props, kv ∈ fp.props ∨ kv.1 = new_field) ∧
    (∀ fld' ∈ fp'.fields, (∃ fld ∈ fp.fields, fld'.name = fld.name) ∨
      fld'.name = new_field) := by
  cases hgp : fp.getPropsBeh with
  | otherErr =>
      rw [processFootprint_propsOther old_l new_field c fp hgp] at hRun
      simp at hRun
  | attrErr =>
      rw [processFootprint_propsAttr old_l new_field c fp hgp] at hRun
      exact processCaseB_names_shape old_l new_field c fp fp' dm df hRun
  | ok =>
      cases hk : findMatchKey fp.props old_l with
      | none =>
          rw [processFootprint_noMatch old_l new_field c fp hgp hk] at hRun
          exact processCaseB_names_shape old_l new_field c fp fp' dm df hRun
      | some k =>
          have hsp : fp.setPropBeh ≠ .otherErr := by
            intro hx
            rw [processFootprint_match_exn old_l new_field c fp k hgp hk hx] at hRun
            simp at hRun
          rw [processFootprint_match_ok old_l new_field c fp k hgp hk hsp] at hRun
          injection hRun with e1 e2 e3
          rw [← e1]
          constructor
          · intro kv hkv
            have hkv' : kv ∈ setKey fp.props new_field ((getKey fp.props k).getD "") := by
              cases c with
              | false => exact mem_of_mem_delKey _ k kv hkv
              | true => exact hkv
            rcases mem_setKey_cases fp.props new_field _ kv hkv' with hin | heq
            · exact Or.inl hin
            · exact Or.inr (by rw [heq])
          · intro fld' h
            exact Or.inl ⟨fld', h, rfl⟩

/-- Witness for C10: renaming onto the deliberately un-normalized new name
`" New NAME "`: the written field name is exactly that string. -/
theorem new_name_written_verbatim_witness :
    (∀ kv ∈ ([] : List (String × String)), kv ∈ ([] : List (String × String)) ∨
      kv.1 = " New NAME ") ∧
    (∀ fld' ∈ [({ name := " New NAME ", text := "XYZ", getNameBeh := .ok,
                  getTextBeh := .ok, setNameBeh := .ok, dupBeh := .ok } : Field)],
      (∃ fld ∈ [({ name := "Part Number", text := "XYZ", getNameBeh := .ok,
                   getTextBeh := .ok, setNameBeh := .ok, dupBeh := .ok } : Field)],
        fld'.name = fld.name) ∨ fld'.name = " New NAME ") :=
  new_name_written_verbatim "part number" " New NAME " false
    { props := [], fields := [{ name := "Part Number", text := "XYZ", getNameBeh := .ok,
                                getTextBeh := .ok, setNameBeh := .ok, dupBeh := .ok }],
      getPropsBeh := .attrErr, setPropBeh := .ok, clearPropBeh := .ok,
      getFieldsBeh := .ok, addBeh := .ok }
    { props := [], fields := [{ name := " New NAME ", text := "XYZ", getNameBeh := .ok,
                                getTextBeh := .ok, setNameBeh := .ok, dupBeh := .ok }],
      getPropsBeh := .attrErr, setPropBeh := .ok, clearPropBeh := .ok,
      getFieldsBeh := .ok, addBeh := .ok }
    1 1 (by decide)

end RenamePlugin
